import Mathlib

/-!
Verification of the rate-limiting core of the bookmarks backend.

The definitions below are a shallow embedding of:
  * `src/backend/src/core/rate_limiter.py` (quota engine, policy table, classification),
  * `src/backend/src/core/redis.py` (Redis client with the two Lua scripts).

The Redis sorted set behind the sliding-window script is modelled as a list of
(score, member) pairs; the counter behind the fixed-window script as a pair of
the counter value and the remaining time-to-live.  Machine integers are `Int`
(Python ints are unbounded, Lua numbers are used on integer values only here).
-/

namespace Bookmarks

/-! ### Classification and policy (rate_limiter.py lines 13-71, 250-256) -/

inductive AuthType
  | PAT
  | AUTH0
deriving DecidableEq, Repr

def AuthType.value : AuthType → String
  | .PAT => "pat"
  | .AUTH0 => "auth0"

inductive OperationType
  | READ
  | WRITE
  | SENSITIVE
deriving DecidableEq, Repr

def OperationType.value : OperationType → String
  | .READ => "read"
  | .WRITE => "write"
  | .SENSITIVE => "sensitive"

structure RateLimitConfig where
  requests_per_minute : Nat
  requests_per_day : Nat
deriving DecidableEq, Repr

structure RateLimitResult where
  allowed : Bool
  limit : Int
  remaining : Int
  reset : Int
  retry_after : Int
deriving DecidableEq, Repr

/-- The rate-limit policy table of `rate_limiter.py` (lines 57-64), the table the
engine's `check` consults; `(PAT, SENSITIVE)` has no entry. -/
def RATE_LIMITS : AuthType → OperationType → Option RateLimitConfig
  | .PAT, .READ => some ⟨120, 2000⟩
  | .PAT, .WRITE => some ⟨60, 2000⟩
  | .PAT, .SENSITIVE => none
  | .AUTH0, .READ => some ⟨300, 4000⟩
  | .AUTH0, .WRITE => some ⟨90, 4000⟩
  | .AUTH0, .SENSITIVE => some ⟨30, 250⟩

/-- The duplicate policy table in `rate_limit_config.py` (lines 62-72).  That module
is imported nowhere in the repository (the API dependency layer imports
`core.rate_limiter`), so this table is dead configuration; it is embedded here only
to document that its values differ from the operative table above. -/
def RATE_LIMITS_unused_module : AuthType → OperationType → Option RateLimitConfig
  | .PAT, .READ => some ⟨240, 4000⟩
  | .PAT, .WRITE => some ⟨120, 4000⟩
  | .PAT, .SENSITIVE => none
  | .AUTH0, .READ => some ⟨180, 4000⟩
  | .AUTH0, .WRITE => some ⟨120, 4000⟩
  | .AUTH0, .SENSITIVE => some ⟨30, 250⟩

/-- Endpoints classified as SENSITIVE (rate_limiter.py lines 68-71). -/
def SENSITIVE_ENDPOINTS : List (String × String) := [("GET", "/bookmarks/fetch-metadata")]

/-- `get_operation_type` (rate_limiter.py lines 250-256): exact membership test,
then exact comparison of the method with "GET". -/
def get_operation_type (method path : String) : OperationType :=
  if (method, path) ∈ SENSITIVE_ENDPOINTS then .SENSITIVE
  else if method = "GET" then .READ
  else .WRITE

/-! ### C6, C7, C10: theorems about classification and the policy table -/

/-- C6: in the policy table the engine consults (`RATE_LIMITS` in rate_limiter.py),
the per-minute limit for (PAT = personal token, READ) is strictly below the
per-minute limit for (AUTH0 = interactive session, READ): 120 < 300. -/
theorem pat_read_minute_lt_auth0_read_minute :
    ∃ cp ca : RateLimitConfig,
      RATE_LIMITS .PAT .READ = some cp ∧
      RATE_LIMITS .AUTH0 .READ = some ca ∧
      cp.requests_per_minute < ca.requests_per_minute := by
  refine ⟨⟨120, 2000⟩, ⟨300, 4000⟩, rfl, rfl, ?_⟩
  decide

/-- C7 counterexample: the classification helper does not strip query parameters.
With the query string attached, the sensitive endpoint is classified READ, so the
two calls do not both yield SENSITIVE as the claim states. -/
theorem classify_query_not_stripped :
    ¬ (get_operation_type "GET" "/bookmarks/fetch-metadata?x=1" = .SENSITIVE ∧
       get_operation_type "GET" "/bookmarks/fetch-metadata" = .SENSITIVE) := by
  decide

/-- C7 amended: `get_operation_type` matches (method, path) exactly against the
sensitive set without normalizing the path.  The bare path is SENSITIVE, the path
with a query string is READ, and in general: SENSITIVE iff exact membership, READ
iff method is "GET" and the pair is not in the set, WRITE iff the method is not
"GET" and the pair is not in the set. -/
theorem classify_exact_match :
    get_operation_type "GET" "/bookmarks/fetch-metadata" = .SENSITIVE ∧
    get_operation_type "GET" "/bookmarks/fetch-metadata?x=1" = .READ ∧
    (∀ m p, get_operation_type m p = .SENSITIVE ↔ (m, p) ∈ SENSITIVE_ENDPOINTS) ∧
    (∀ m p, get_operation_type m p = .READ ↔ (m = "GET" ∧ (m, p) ∉ SENSITIVE_ENDPOINTS)) ∧
    (∀ m p, get_operation_type m p = .WRITE ↔ (m ≠ "GET" ∧ (m, p) ∉ SENSITIVE_ENDPOINTS)) := by
  refine ⟨by decide, by decide, ?_, ?_, ?_⟩ <;> intro m p <;>
    (unfold get_operation_type; split_ifs with hmem hget <;> simp_all)

/-- C10: method matching is case-sensitive.  The method "get" is always
classified WRITE (it never appears in the sensitive set), and a READ
classification forces the method to be exactly "GET". -/
theorem method_match_case_sensitive :
    (∀ p, get_operation_type "get" p = .WRITE) ∧
    (∀ m p, get_operation_type m p = .READ ↔ (m = "GET" ∧ (m, p) ∉ SENSITIVE_ENDPOINTS)) := by
  constructor
  · intro p
    have hmem : ("get", p) ∉ SENSITIVE_ENDPOINTS := by
      simp [SENSITIVE_ENDPOINTS]
    simp [get_operation_type, hmem]
  · intro m p
    unfold get_operation_type
    split_ifs with hmem hget <;> simp_all

/-! ### The two Lua scripts (redis.py lines 13-60)

`SLIDING_WINDOW_SCRIPT`: the sorted set at the key is a list of (score, member)
pairs.  `ZREMRANGEBYSCORE key 0 (now - window)` removes exactly the entries whose
score lies in the inclusive range [0, now - window]; `ZCARD` counts the rest;
`ZADD key now (now .. ':' .. request_id)` appends the new member with score `now`;
`ZRANGE key 0 0 WITHSCORES` yields the minimal score.  `math.ceil` is applied to
an integer quantity (all scores and arguments are integers), so it is the
identity and the retry value is `oldest + window - now`. -/

structure SWOut where
  allowed : Int
  remaining : Int
  retry_after : Int
  entries : List (Int × String)
  expire : Option Int
deriving DecidableEq, Repr

def SLIDING_WINDOW_SCRIPT (entries : List (Int × String))
    (now window limit : Int) (request_id : String) : SWOut :=
  let kept := entries.filter (fun e => decide (¬ (0 ≤ e.1 ∧ e.1 ≤ now - window)))
  let count : Int := kept.length
  if count < limit then
    { allowed := 1, remaining := limit - count - 1, retry_after := 0,
      entries := kept ++ [(now, toString now ++ ":" ++ request_id)],
      expire := some window }
  else
    { allowed := 0, remaining := 0,
      retry_after :=
        match (kept.map Prod.fst).min? with
        | some oldest => oldest + window - now
        | none => 0,
      entries := kept, expire := none }

/-- `FIXED_WINDOW_SCRIPT`'s counter key: `count = 0` models an absent key (INCR
creates it with value 1); `ttl = -2` is what TTL reports for an absent key. -/
structure FWState where
  count : Nat
  ttl : Int
deriving DecidableEq, Repr

def FWState.empty : FWState := ⟨0, -2⟩

structure FWOut where
  allowed : Int
  remaining : Int
  ttl : Int
  retry_after : Int
  state : FWState
deriving DecidableEq, Repr

/-- `FIXED_WINDOW_SCRIPT` (redis.py lines 44-60): INCR, set expiry when the
increment produced 1, read TTL back, compare with the limit. -/
def FIXED_WINDOW_SCRIPT (st : FWState) (limit window : Int) : FWOut :=
  let count := st.count + 1
  let ttl := if count = 1 then window else st.ttl
  if (count : Int) ≤ limit then
    { allowed := 1, remaining := limit - count, ttl := ttl, retry_after := 0,
      state := ⟨count, ttl⟩ }
  else
    { allowed := 0, remaining := 0, ttl := ttl, retry_after := ttl,
      state := ⟨count, ttl⟩ }

/-! ### C1: the sliding-window script vs. the claimed step list -/

/-- Modelled from the claim's wording for the sliding-window operation: identical
to `SLIDING_WINDOW_SCRIPT` except that eviction removes exactly the entries with
timestamp strictly below `now - window` ("evicts every stored entry whose
timestamp is < now − window_seconds"). -/
def sliding_window_claimed (entries : List (Int × String))
    (now window limit : Int) (request_id : String) : SWOut :=
  let kept := entries.filter (fun e => decide (¬ (e.1 < now - window)))
  let count : Int := kept.length
  if count < limit then
    { allowed := 1, remaining := limit - count - 1, retry_after := 0,
      entries := kept ++ [(now, toString now ++ ":" ++ request_id)],
      expire := some window }
  else
    { allowed := 0, remaining := 0,
      retry_after :=
        match (kept.map Prod.fst).min? with
        | some oldest => oldest + window - now
        | none => 0,
      entries := kept, expire := none }

/-- Modelled from the claim as amended: eviction removes the entries with
timestamp ≤ now − window (the script's inclusive ZREMRANGEBYSCORE range); all
other steps exactly as the claim states them. -/
def sliding_window_amended (entries : List (Int × String))
    (now window limit : Int) (request_id : String) : SWOut :=
  let kept := entries.filter (fun e => decide (¬ (e.1 ≤ now - window)))
  let count : Int := kept.length
  if count < limit then
    { allowed := 1, remaining := limit - count - 1, retry_after := 0,
      entries := kept ++ [(now, toString now ++ ":" ++ request_id)],
      expire := some window }
  else
    { allowed := 0, remaining := 0,
      retry_after :=
        match (kept.map Prod.fst).min? with
        | some oldest => oldest + window - now
        | none => 0,
      entries := kept, expire := none }

/-- C1 counterexample: one stored entry with timestamp exactly `now - window`
(entry 0, now = 60, window = 60, cap 1).  The claimed steps keep the boundary
entry and deny the request; the script evicts it and allows the request. -/
theorem sliding_window_eviction_boundary :
    (SLIDING_WINDOW_SCRIPT [((0 : Int), "0:a")] 60 60 1 "b").allowed = 1 ∧
    (sliding_window_claimed [((0 : Int), "0:a")] 60 60 1 "b").allowed = 0 := by
  decide

/-- C1 amended: on any store whose timestamps are nonnegative (every stored entry
was written with a nonnegative clock value), the script performs exactly the
claimed steps with the eviction predicate `timestamp ≤ now − window` in place of
`timestamp < now − window`. -/
theorem sliding_window_script_eq_amended (entries : List (Int × String))
    (now window limit : Int) (request_id : String)
    (hwf : ∀ e ∈ entries, 0 ≤ e.1) :
    SLIDING_WINDOW_SCRIPT entries now window limit request_id =
      sliding_window_amended entries now window limit request_id := by
  have hfilter :
      entries.filter (fun e => decide (¬ (0 ≤ e.1 ∧ e.1 ≤ now - window))) =
        entries.filter (fun e => decide (¬ (e.1 ≤ now - window))) := by
    refine List.filter_congr ?_
    intro e he
    have h0 : 0 ≤ e.1 := hwf e he
    simp [h0]
  unfold SLIDING_WINDOW_SCRIPT sliding_window_amended
  rw [hfilter]

/-- C1 amended, witness at a concrete input: two live entries, one stale entry. -/
theorem sliding_window_script_eq_amended_witness :
    SLIDING_WINDOW_SCRIPT [((5 : Int), "5:x"), (30, "30:y"), (90, "90:z")] 100 60 3 "w" =
      sliding_window_amended [((5 : Int), "5:x"), (30, "30:y"), (90, "90:z")] 100 60 3 "w" :=
  sliding_window_script_eq_amended _ 100 60 3 "w" (by decide)

/-! ### C2: the fixed-window script -/

/-- Modelled from the spec's wording for the fixed-window operation: increment
the counter, set the expiry when the increment brought the counter from 0 to 1,
read the ttl back, allow with `remaining = limit - counter` when
`counter ≤ limit`, else deny with `retry_after = ttl`. -/
def fixed_window_specified (st : FWState) (limit window : Int) : FWOut :=
  let counter := st.count + 1
  let ttl := if st.count = 0 then window else st.ttl
  if (counter : Int) ≤ limit then
    { allowed := 1, remaining := limit - counter, ttl := ttl, retry_after := 0,
      state := ⟨counter, ttl⟩ }
  else
    { allowed := 0, remaining := 0, ttl := ttl, retry_after := ttl,
      state := ⟨counter, ttl⟩ }

/-- C2: the fixed-window script implements exactly the specified steps, and on a
fresh key with limit 3 four successive calls return allowed with remaining 2, 1,
0 and then denied with remaining 0 and retry_after equal to the (positive) ttl. -/
theorem fixed_window_correct :
    (∀ (st : FWState) (limit window : Int),
        FIXED_WINDOW_SCRIPT st limit window = fixed_window_specified st limit window) ∧
    (let o1 := FIXED_WINDOW_SCRIPT FWState.empty 3 86400
     let o2 := FIXED_WINDOW_SCRIPT o1.state 3 86400
     let o3 := FIXED_WINDOW_SCRIPT o2.state 3 86400
     let o4 := FIXED_WINDOW_SCRIPT o3.state 3 86400
     o1.allowed = 1 ∧ o1.remaining = 2 ∧
     o2.allowed = 1 ∧ o2.remaining = 1 ∧
     o3.allowed = 1 ∧ o3.remaining = 0 ∧
     o4.allowed = 0 ∧ o4.remaining = 0 ∧ o4.retry_after = o4.ttl ∧ 0 < o4.ttl) := by
  constructor
  · intro st limit window
    unfold FIXED_WINDOW_SCRIPT fixed_window_specified
    have h : (st.count + 1 = 1) ↔ (st.count = 0) := by omega
    simp only [h]
  · decide

/-! ### Redis client state and the engine (redis.py, rate_limiter.py)

The Redis keyspace is split into the sorted sets touched by the sliding-window
script and the counters touched by the fixed-window script.  The two key
formats, `rate:{id}:{auth}:{op}:min` and `rate:{id}:daily:{pool}`, can never
name the same string (the segment after the id is an auth value, never
"daily"), so the split is faithful to the single Redis keyspace. -/

structure RedisStore where
  zsets : String → List (Int × String)
  counters : String → FWState

/-- The global `RedisClient` object: `client_set` models `_client is not None`
(which is exactly `is_connected`), the two sha flags model whether the script
SHAs were loaded, and `evalsha_ok` models whether an EVALSHA round-trip
succeeds (a `RedisError` makes `evalsha` return `None`). -/
structure RedisClient where
  client_set : Bool
  sliding_window_sha : Bool
  fixed_window_sha : Bool
  evalsha_ok : Bool
  store : RedisStore

def RedisClient.is_connected (c : RedisClient) : Bool := c.client_set

/-- The permissive result produced on every fail-open path
(`allowed=True, limit=remaining=max_requests, reset=0, retry_after=0`). -/
def failOpenResult (max_requests : Int) : RateLimitResult :=
  { allowed := true, limit := max_requests, remaining := max_requests,
    reset := 0, retry_after := 0 }

/-- `RedisRateLimiter._check_sliding_window` (rate_limiter.py lines 149-196),
returning the result together with the evolved global client. -/
def check_sliding_window (client : Option RedisClient) (key : String)
    (max_requests window_seconds now : Int) (request_id : String) :
    RateLimitResult × Option RedisClient :=
  match client with
  | none => (failOpenResult max_requests, none)
  | some c =>
    if c.sliding_window_sha = false then (failOpenResult max_requests, some c)
    else if (c.client_set && c.evalsha_ok) = false then
      -- evalsha returned None (inner client unset, or RedisError)
      (failOpenResult max_requests, some c)
    else
      let out := SLIDING_WINDOW_SCRIPT (c.store.zsets key) now window_seconds
        max_requests request_id
      ({ allowed := out.allowed != 0,
         limit := max_requests,
         remaining := max 0 out.remaining,
         reset := now + window_seconds,
         retry_after := if out.allowed != 0 then 0 else max 0 out.retry_after },
       some { c with store := { c.store with
         zsets := fun k => if k = key then out.entries else c.store.zsets k } })

/-- `RedisRateLimiter._check_fixed_window` (rate_limiter.py lines 198-243). -/
def check_fixed_window (client : Option RedisClient) (key : String)
    (max_requests window_seconds now : Int) :
    RateLimitResult × Option RedisClient :=
  match client with
  | none => (failOpenResult max_requests, none)
  | some c =>
    if c.fixed_window_sha = false then (failOpenResult max_requests, some c)
    else if (c.client_set && c.evalsha_ok) = false then
      (failOpenResult max_requests, some c)
    else
      let out := FIXED_WINDOW_SCRIPT (c.store.counters key) max_requests window_seconds
      ({ allowed := out.allowed != 0,
         limit := max_requests,
         remaining := max 0 out.remaining,
         reset := if out.ttl > 0 then now + out.ttl else now + window_seconds,
         retry_after := if out.allowed != 0 then 0 else max 0 out.retry_after },
       some { c with store := { c.store with
         counters := fun k => if k = key then out.state else c.store.counters k } })

/-- Per-minute key `rate:{user_id}:{auth_type.value}:{operation_type.value}:min`. -/
def minute_key (user_id : Nat) (a : AuthType) (o : OperationType) : String :=
  "rate:" ++ Nat.repr user_id ++ ":" ++ a.value ++ ":" ++ o.value ++ ":min"

/-- `"sensitive" if operation_type == OperationType.SENSITIVE else "general"`. -/
def daily_pool (o : OperationType) : String :=
  if o = .SENSITIVE then "sensitive" else "general"

/-- Daily key `rate:{user_id}:daily:{daily_pool}`. -/
def day_key (user_id : Nat) (pool : String) : String :=
  "rate:" ++ Nat.repr user_id ++ ":daily:" ++ pool

/-- `RedisRateLimiter.check` (rate_limiter.py lines 77-147). -/
def check (client : Option RedisClient) (user_id : Nat)
    (auth_type : AuthType) (operation_type : OperationType)
    (now : Int) (request_id : String) :
    RateLimitResult × Option RedisClient :=
  match RATE_LIMITS auth_type operation_type with
  | none =>
    ({ allowed := true, limit := 0, remaining := 0, reset := 0, retry_after := 0 }, client)
  | some config =>
    match client with
    | none => (failOpenResult config.requests_per_minute, none)
    | some c =>
      if c.is_connected = false then (failOpenResult config.requests_per_minute, some c)
      else
        let minute := check_sliding_window (some c)
          (minute_key user_id auth_type operation_type)
          config.requests_per_minute 60 now request_id
        if minute.1.allowed = false then minute
        else
          let day := check_fixed_window minute.2
            (day_key user_id (daily_pool operation_type))
            config.requests_per_day 86400 now
          if day.1.allowed = false then day
          else (minute.1, day.2)

/-! ### C4: fail-open when the store is unavailable -/

/-- C4: whenever a policy entry exists and the store is unavailable — the global
client is unset, the inner connection is absent (`is_connected` false), or
neither script SHA is loaded — `check` returns the permissive decision with
`limit = remaining = requests_per_minute`, for every store content (hence
regardless of prior calls). -/
theorem check_fail_open (client : Option RedisClient) (user_id : Nat)
    (a : AuthType) (o : OperationType) (now : Int) (request_id : String)
    (cfg : RateLimitConfig) (hcfg : RATE_LIMITS a o = some cfg)
    (h : client = none ∨ ∃ c, client = some c ∧
      (c.is_connected = false ∨
        (c.sliding_window_sha = false ∧ c.fixed_window_sha = false))) :
    (check client user_id a o now request_id).1 = failOpenResult cfg.requests_per_minute := by
  rcases h with rfl | ⟨c, rfl, hc⟩
  · simp [check, hcfg]
  · rcases hc with hconn | ⟨hsw, hfw⟩
    · simp [check, hcfg, hconn]
    · by_cases hconn : c.is_connected = false
      · simp [check, hcfg, hconn]
      · simp [check, hcfg, hconn, check_sliding_window, check_fixed_window,
          hsw, hfw, failOpenResult]

/-- C4 witness: a connected client whose script SHAs failed to load, with an
arbitrary nonempty store, still yields the permissive per-minute decision. -/
theorem check_fail_open_witness :
    (check (some
      { client_set := true, sliding_window_sha := false, fixed_window_sha := false,
        evalsha_ok := true,
        store := { zsets := fun _ => [((7 : Int), "7:q")],
                   counters := fun _ => ⟨5000, 1000⟩ } })
      42 .AUTH0 .READ 1000 "rid").1 = failOpenResult 300 :=
  check_fail_open _ 42 .AUTH0 .READ 1000 "rid" ⟨300, 4000⟩ rfl
    (Or.inr ⟨_, rfl, Or.inr ⟨rfl, rfl⟩⟩)

/-! ### Unfolding, frame and congruence lemmas for the engine -/

theorem check_sliding_window_run (c : RedisClient) (key : String)
    (mr w now : Int) (rid : String)
    (h1 : c.sliding_window_sha = true) (h2 : c.client_set = true)
    (h3 : c.evalsha_ok = true) :
    check_sliding_window (some c) key mr w now rid =
      (let out := SLIDING_WINDOW_SCRIPT (c.store.zsets key) now w mr rid
       ({ allowed := out.allowed != 0,
          limit := mr,
          remaining := max 0 out.remaining,
          reset := now + w,
          retry_after := if out.allowed != 0 then 0 else max 0 out.retry_after },
        some { c with store := { c.store with
          zsets := fun k => if k = key then out.entries else c.store.zsets k } })) := by
  simp [check_sliding_window, h1, h2, h3]

theorem check_fixed_window_run (c : RedisClient) (key : String) (mr w now : Int)
    (h1 : c.fixed_window_sha = true) (h2 : c.client_set = true)
    (h3 : c.evalsha_ok = true) :
    check_fixed_window (some c) key mr w now =
      (let out := FIXED_WINDOW_SCRIPT (c.store.counters key) mr w
       ({ allowed := out.allowed != 0,
          limit := mr,
          remaining := max 0 out.remaining,
          reset := if out.ttl > 0 then now + out.ttl else now + w,
          retry_after := if out.allowed != 0 then 0 else max 0 out.retry_after },
        some { c with store := { c.store with
          counters := fun k => if k = key then out.state else c.store.counters k } })) := by
  simp [check_fixed_window, h1, h2, h3]

theorem check_sliding_window_frame (c : RedisClient) (key : String)
    (mr w now : Int) (rid : String) :
    ∃ c', (check_sliding_window (some c) key mr w now rid).2 = some c' ∧
      c'.client_set = c.client_set ∧
      c'.sliding_window_sha = c.sliding_window_sha ∧
      c'.fixed_window_sha = c.fixed_window_sha ∧
      c'.evalsha_ok = c.evalsha_ok ∧
      c'.store.counters = c.store.counters ∧
      (∀ k, k ≠ key → c'.store.zsets k = c.store.zsets k) := by
  by_cases h1 : c.sliding_window_sha = false
  · exact ⟨c, by simp [check_sliding_window, h1], rfl, rfl, rfl, rfl, rfl, fun _ _ => rfl⟩
  · by_cases h2 : (c.client_set && c.evalsha_ok) = false
    · exact ⟨c, by simp [check_sliding_window, h1, h2], rfl, rfl, rfl, rfl, rfl,
        fun _ _ => rfl⟩
    · rw [Bool.not_eq_false] at h1
      rw [Bool.not_eq_false, Bool.and_eq_true] at h2
      rw [check_sliding_window_run c key mr w now rid h1 h2.1 h2.2]
      refine ⟨_, rfl, rfl, rfl, rfl, rfl, rfl, ?_⟩
      intro k hk
      simp [hk]

theorem check_fixed_window_frame (c : RedisClient) (key : String) (mr w now : Int) :
    ∃ c', (check_fixed_window (some c) key mr w now).2 = some c' ∧
      c'.client_set = c.client_set ∧
      c'.sliding_window_sha = c.sliding_window_sha ∧
      c'.fixed_window_sha = c.fixed_window_sha ∧
      c'.evalsha_ok = c.evalsha_ok ∧
      c'.store.zsets = c.store.zsets ∧
      (∀ k, k ≠ key → c'.store.counters k = c.store.counters k) := by
  by_cases h1 : c.fixed_window_sha = false
  · exact ⟨c, by simp [check_fixed_window, h1], rfl, rfl, rfl, rfl, rfl, fun _ _ => rfl⟩
  · by_cases h2 : (c.client_set && c.evalsha_ok) = false
    · exact ⟨c, by simp [check_fixed_window, h1, h2], rfl, rfl, rfl, rfl, rfl,
        fun _ _ => rfl⟩
    · rw [Bool.not_eq_false] at h1
      rw [Bool.not_eq_false, Bool.and_eq_true] at h2
      rw [check_fixed_window_run c key mr w now h1 h2.1 h2.2]
      refine ⟨_, rfl, rfl, rfl, rfl, rfl, rfl, ?_⟩
      intro k hk
      simp [hk]

theorem check_sliding_window_congr (c₁ c₂ : RedisClient) (key : String)
    (mr w now : Int) (rid : String)
    (h1 : c₂.client_set = c₁.client_set)
    (h2 : c₂.sliding_window_sha = c₁.sliding_window_sha)
    (h3 : c₂.evalsha_ok = c₁.evalsha_ok)
    (h4 : c₂.store.zsets key = c₁.store.zsets key) :
    (check_sliding_window (some c₂) key mr w now rid).1 =
      (check_sliding_window (some c₁) key mr w now rid).1 := by
  by_cases hs : c₁.sliding_window_sha = false
  · have hs₂ : c₂.sliding_window_sha = false := by rw [h2, hs]
    simp [check_sliding_window, hs, hs₂]
  · have hs₂ : ¬ c₂.sliding_window_sha = false := by rw [h2]; exact hs
    by_cases hok : (c₁.client_set && c₁.evalsha_ok) = false
    · have hok₂ : (c₂.client_set && c₂.evalsha_ok) = false := by rw [h1, h3]; exact hok
      simp [check_sliding_window, hs, hs₂, hok, hok₂]
    · have hok₂ : ¬ (c₂.client_set && c₂.evalsha_ok) = false := by rw [h1, h3]; exact hok
      rw [Bool.not_eq_false] at hs hs₂
      rw [Bool.not_eq_false, Bool.and_eq_true] at hok hok₂
      rw [check_sliding_window_run c₁ key mr w now rid hs hok.1 hok.2,
        check_sliding_window_run c₂ key mr w now rid hs₂ hok₂.1 hok₂.2]
      simp only [h4]

theorem check_fixed_window_congr (c₁ c₂ : RedisClient) (key : String) (mr w now : Int)
    (h1 : c₂.client_set = c₁.client_set)
    (h2 : c₂.fixed_window_sha = c₁.fixed_window_sha)
    (h3 : c₂.evalsha_ok = c₁.evalsha_ok)
    (h4 : c₂.store.counters key = c₁.store.counters key) :
    (check_fixed_window (some c₂) key mr w now).1 =
      (check_fixed_window (some c₁) key mr w now).1 := by
  by_cases hs : c₁.fixed_window_sha = false
  · have hs₂ : c₂.fixed_window_sha = false := by rw [h2, hs]
    simp [check_fixed_window, hs, hs₂]
  · have hs₂ : ¬ c₂.fixed_window_sha = false := by rw [h2]; exact hs
    by_cases hok : (c₁.client_set && c₁.evalsha_ok) = false
    · have hok₂ : (c₂.client_set && c₂.evalsha_ok) = false := by rw [h1, h3]; exact hok
      simp [check_fixed_window, hs, hs₂, hok, hok₂]
    · have hok₂ : ¬ (c₂.client_set && c₂.evalsha_ok) = false := by rw [h1, h3]; exact hok
      rw [Bool.not_eq_false] at hs hs₂
      rw [Bool.not_eq_false, Bool.and_eq_true] at hok hok₂
      rw [check_fixed_window_run c₁ key mr w now hs hok.1 hok.2,
        check_fixed_window_run c₂ key mr w now hs₂ hok₂.1 hok₂.2]
      simp only [h4]

theorem check_unfold_cfg (c : RedisClient) (u : Nat) (a : AuthType) (o : OperationType)
    (now : Int) (rid : String) (cfg : RateLimitConfig)
    (hcfg : RATE_LIMITS a o = some cfg) :
    check (some c) u a o now rid =
      (if c.is_connected = false then (failOpenResult cfg.requests_per_minute, some c)
       else
         let minute := check_sliding_window (some c) (minute_key u a o)
           cfg.requests_per_minute 60 now rid
         if minute.1.allowed = false then minute
         else
           let day := check_fixed_window minute.2 (day_key u (daily_pool o))
             cfg.requests_per_day 86400 now
           if day.1.allowed = false then day
           else (minute.1, day.2)) := by
  unfold check
  rw [hcfg]

/-- The decision returned by `check` depends only on the availability flags and
on the store values at the caller's own two keys. -/
theorem check_congr (c₁ c₂ : RedisClient) (u : Nat) (a : AuthType) (o : OperationType)
    (now : Int) (rid : String)
    (h1 : c₂.client_set = c₁.client_set)
    (h2 : c₂.sliding_window_sha = c₁.sliding_window_sha)
    (h3 : c₂.fixed_window_sha = c₁.fixed_window_sha)
    (h4 : c₂.evalsha_ok = c₁.evalsha_ok)
    (hz : c₂.store.zsets (minute_key u a o) = c₁.store.zsets (minute_key u a o))
    (hc : c₂.store.counters (day_key u (daily_pool o)) =
      c₁.store.counters (day_key u (daily_pool o))) :
    (check (some c₂) u a o now rid).1 = (check (some c₁) u a o now rid).1 := by
  cases hcfg : RATE_LIMITS a o with
  | none => simp [check, hcfg]
  | some cfg =>
    rw [check_unfold_cfg c₁ u a o now rid cfg hcfg, check_unfold_cfg c₂ u a o now rid cfg hcfg]
    have hconn : c₂.is_connected = c₁.is_connected := h1
    rw [hconn]
    by_cases hic : c₁.is_connected = false
    · simp [hic]
    · simp only [hic, if_false]
      have hmin := check_sliding_window_congr c₁ c₂ (minute_key u a o)
        cfg.requests_per_minute 60 now rid h1 h2 h4 hz
      by_cases hall : (check_sliding_window (some c₁) (minute_key u a o)
          (cfg.requests_per_minute : Int) 60 now rid).1.allowed = false
      · simp [hmin, hall]
      · obtain ⟨c₁', he₁, f₁1, f₁2, f₁3, f₁4, f₁5, -⟩ :=
          check_sliding_window_frame c₁ (minute_key u a o) cfg.requests_per_minute 60 now rid
        obtain ⟨c₂', he₂, f₂1, f₂2, f₂3, f₂4, f₂5, -⟩ :=
          check_sliding_window_frame c₂ (minute_key u a o) cfg.requests_per_minute 60 now rid
        rw [he₁, he₂]
        have hday := check_fixed_window_congr c₁' c₂'
          (day_key u (daily_pool o)) cfg.requests_per_day 86400 now
          (by rw [f₂1, f₁1, h1]) (by rw [f₂3, f₁3, h3]) (by rw [f₂4, f₁4, h4])
          (by rw [f₂5, f₁5]; exact hc)
        by_cases hd : (check_fixed_window (some c₁') (day_key u (daily_pool o))
            (cfg.requests_per_day : Int) 86400 now).1.allowed = false <;>
          simp [hmin, hall, hday, hd]

/-! ### Branch equations for `check` -/

theorem check_minute_denied (c : RedisClient) (u : Nat) (a : AuthType) (o : OperationType)
    (now : Int) (rid : String) (cfg : RateLimitConfig)
    (hcfg : RATE_LIMITS a o = some cfg) (hic : c.is_connected = true)
    (hall : (check_sliding_window (some c) (minute_key u a o)
      (cfg.requests_per_minute : Int) 60 now rid).1.allowed = false) :
    check (some c) u a o now rid =
      check_sliding_window (some c) (minute_key u a o)
        (cfg.requests_per_minute : Int) 60 now rid := by
  rw [check_unfold_cfg c u a o now rid cfg hcfg]
  simp [hic, hall]

theorem check_minute_allowed (c : RedisClient) (u : Nat) (a : AuthType) (o : OperationType)
    (now : Int) (rid : String) (cfg : RateLimitConfig)
    (hcfg : RATE_LIMITS a o = some cfg) (hic : c.is_connected = true)
    (hall : (check_sliding_window (some c) (minute_key u a o)
      (cfg.requests_per_minute : Int) 60 now rid).1.allowed = true) :
    check (some c) u a o now rid =
      (let minute := check_sliding_window (some c) (minute_key u a o)
        (cfg.requests_per_minute : Int) 60 now rid
       let day := check_fixed_window minute.2 (day_key u (daily_pool o))
        (cfg.requests_per_day : Int) 86400 now
       if day.1.allowed = false then day else (minute.1, day.2)) := by
  rw [check_unfold_cfg c u a o now rid cfg hcfg]
  simp [hic, hall]

/-! ### Minimum-of-list helpers for the ZRANGE 0 0 lookup -/

theorem foldl_min_mem (l : List Int) (a : Int) : l.foldl min a ∈ a :: l := by
  induction l generalizing a with
  | nil => simp
  | cons b bs ih =>
    rw [List.foldl_cons]
    have h := ih (min a b)
    rcases min_choice a b with hm | hm <;> rw [hm] at h ⊢ <;>
      rcases List.mem_cons.mp h with h' | h' <;> simp [h']

theorem min?_mem_int (l : List Int) (h : l ≠ []) : ∃ m, l.min? = some m ∧ m ∈ l := by
  cases l with
  | nil => exact absurd rfl h
  | cons a as =>
    refine ⟨as.foldl min a, ?_, foldl_min_mem as a⟩
    simp [List.min?]

/-! ### Result invariants of the two window checks -/

/-- The decision invariant of C3. -/
def DecisionInvariant (r : RateLimitResult) : Prop :=
  (0 < r.retry_after ↔ r.allowed = false) ∧ 0 ≤ r.remaining ∧ r.remaining ≤ r.limit

theorem sliding_script_cases (entries : List (Int × String)) (now window limit : Int)
    (rid : String) (hwf : ∀ e ∈ entries, 0 ≤ e.1) (hlim : 1 ≤ limit) :
    ((SLIDING_WINDOW_SCRIPT entries now window limit rid).allowed = 1 ∧
     (SLIDING_WINDOW_SCRIPT entries now window limit rid).retry_after = 0 ∧
     0 ≤ (SLIDING_WINDOW_SCRIPT entries now window limit rid).remaining ∧
     (SLIDING_WINDOW_SCRIPT entries now window limit rid).remaining < limit) ∨
    ((SLIDING_WINDOW_SCRIPT entries now window limit rid).allowed = 0 ∧
     (SLIDING_WINDOW_SCRIPT entries now window limit rid).remaining = 0 ∧
     1 ≤ (SLIDING_WINDOW_SCRIPT entries now window limit rid).retry_after) := by
  simp only [SLIDING_WINDOW_SCRIPT]
  by_cases hcnt :
      (((entries.filter (fun e => decide (¬ (0 ≤ e.1 ∧ e.1 ≤ now - window)))).length : Int)
        < limit)
  · rw [if_pos hcnt]
    left
    refine ⟨rfl, rfl, ?_, ?_⟩ <;> dsimp only <;> omega
  · rw [if_neg hcnt]
    right
    refine ⟨rfl, rfl, ?_⟩
    dsimp only
    have hne : entries.filter (fun e => decide (¬ (0 ≤ e.1 ∧ e.1 ≤ now - window))) ≠ [] := by
      intro h
      rw [h] at hcnt
      simp at hcnt
      omega
    have hne' : (entries.filter
        (fun e => decide (¬ (0 ≤ e.1 ∧ e.1 ≤ now - window)))).map Prod.fst ≠ [] := by
      simpa using hne
    obtain ⟨m, hmin, hmem⟩ := min?_mem_int _ hne'
    rw [hmin]
    show 1 ≤ m + window - now
    obtain ⟨e, he, hem⟩ := List.mem_map.mp hmem
    obtain ⟨hent, hpred⟩ := List.mem_filter.mp he
    have h0 : 0 ≤ e.1 := hwf e hent
    have hgt : e.1 < 0 ∨ now - window < e.1 := by
      simpa using hpred
    subst hem
    omega

theorem fixed_script_cases (st : FWState) (limit window : Int)
    (hwf : 1 ≤ st.count → 1 ≤ st.ttl) (hlim : 1 ≤ limit) (_hwin : 1 ≤ window) :
    ((FIXED_WINDOW_SCRIPT st limit window).allowed = 1 ∧
     (FIXED_WINDOW_SCRIPT st limit window).retry_after = 0 ∧
     0 ≤ (FIXED_WINDOW_SCRIPT st limit window).remaining ∧
     (FIXED_WINDOW_SCRIPT st limit window).remaining < limit) ∨
    ((FIXED_WINDOW_SCRIPT st limit window).allowed = 0 ∧
     (FIXED_WINDOW_SCRIPT st limit window).remaining = 0 ∧
     1 ≤ (FIXED_WINDOW_SCRIPT st limit window).retry_after) := by
  simp only [FIXED_WINDOW_SCRIPT]
  by_cases hcnt : (((st.count + 1 : Nat) : Int) ≤ limit)
  · rw [if_pos hcnt]
    left
    refine ⟨rfl, rfl, ?_, ?_⟩ <;> dsimp only <;> omega
  · rw [if_neg hcnt]
    right
    refine ⟨rfl, rfl, ?_⟩
    dsimp only
    have hc1 : 1 ≤ st.count := by omega
    have hne1 : ¬ (st.count + 1 = 1) := by omega
    rw [if_neg hne1]
    exact hwf hc1

theorem check_sliding_window_invariant (c : RedisClient) (key : String)
    (limit window now : Int) (rid : String)
    (hwf : ∀ e ∈ c.store.zsets key, 0 ≤ e.1) (hlim : 1 ≤ limit) :
    DecisionInvariant (check_sliding_window (some c) key limit window now rid).1 := by
  by_cases h1 : c.sliding_window_sha = false
  · simp [check_sliding_window, h1, DecisionInvariant, failOpenResult]
    omega
  · by_cases h2 : (c.client_set && c.evalsha_ok) = false
    · simp [check_sliding_window, h1, h2, DecisionInvariant, failOpenResult]
      omega
    · rw [Bool.not_eq_false] at h1
      rw [Bool.not_eq_false, Bool.and_eq_true] at h2
      rw [check_sliding_window_run c key limit window now rid h1 h2.1 h2.2]
      rcases sliding_script_cases (c.store.zsets key) now window limit rid hwf hlim with
        ⟨ha, hr, hm0, hml⟩ | ⟨ha, hm, hr⟩
      · refine ⟨by simp [ha, hr], by simp, ?_⟩
        dsimp only
        rw [max_eq_right hm0]
        omega
      · refine ⟨?_, by simp, ?_⟩
        · dsimp only
          have h0r : (0 : Int) ≤
              (SLIDING_WINDOW_SCRIPT (c.store.zsets key) now window limit rid).retry_after := by
            omega
          rw [max_eq_right h0r, ha]
          simp
          omega
        · dsimp only
          rw [hm]
          simp
          omega

theorem check_fixed_window_invariant (c : RedisClient) (key : String)
    (limit window now : Int)
    (hwf : 1 ≤ (c.store.counters key).count → 1 ≤ (c.store.counters key).ttl)
    (hlim : 1 ≤ limit) (hwin : 1 ≤ window) :
    DecisionInvariant (check_fixed_window (some c) key limit window now).1 := by
  by_cases h1 : c.fixed_window_sha = false
  · simp [check_fixed_window, h1, DecisionInvariant, failOpenResult]
    omega
  · by_cases h2 : (c.client_set && c.evalsha_ok) = false
    · simp [check_fixed_window, h1, h2, DecisionInvariant, failOpenResult]
      omega
    · rw [Bool.not_eq_false] at h1
      rw [Bool.not_eq_false, Bool.and_eq_true] at h2
      rw [check_fixed_window_run c key limit window now h1 h2.1 h2.2]
      rcases fixed_script_cases (c.store.counters key) limit window hwf hlim hwin with
        ⟨ha, hr, hm0, hml⟩ | ⟨ha, hm, hr⟩
      · refine ⟨by simp [ha, hr], by simp, ?_⟩
        dsimp only
        rw [max_eq_right hm0]
        omega
      · refine ⟨?_, by simp, ?_⟩
        · dsimp only
          have h0r : (0 : Int) ≤
              (FIXED_WINDOW_SCRIPT (c.store.counters key) limit window).retry_after := by
            omega
          rw [max_eq_right h0r, ha]
          simp
          omega
        · dsimp only
          rw [hm]
          simp
          omega

/-! ### Reachable-store well-formedness and the C3 invariant -/

/-- Reachable stores: every sorted-set entry was written with a nonnegative
clock value (`int(time.time())`), and a counter key that exists (count ≥ 1)
carries a positive ttl (it was given one by EXPIRE and has not yet expired —
an expired key is deleted, i.e. count returns to 0). -/
def WFStore (s : RedisStore) : Prop :=
  (∀ k, ∀ e ∈ s.zsets k, 0 ≤ e.1) ∧
  (∀ k, 1 ≤ (s.counters k).count → 1 ≤ (s.counters k).ttl)

def WFClient : Option RedisClient → Prop
  | none => True
  | some c => WFStore c.store

theorem RATE_LIMITS_pos (a : AuthType) (o : OperationType) (cfg : RateLimitConfig)
    (h : RATE_LIMITS a o = some cfg) :
    1 ≤ cfg.requests_per_minute ∧ 1 ≤ cfg.requests_per_day := by
  cases a <;> cases o <;> simp only [RATE_LIMITS] at h <;>
    first
      | exact Option.noConfusion h
      | (injection h with h2; subst h2; exact ⟨by decide, by decide⟩)

/-- C3: for every subject, auth class, operation class and well-formed store
state — including the disconnected-store and unconfigured-combination branches —
the decision returned by `check` satisfies `0 < retry_after ↔ allowed = false`,
`0 ≤ remaining`, and `remaining ≤ limit`. -/
theorem check_decision_invariant (client : Option RedisClient) (u : Nat)
    (a : AuthType) (o : OperationType) (now : Int) (rid : String)
    (hwf : WFClient client) :
    DecisionInvariant (check client u a o now rid).1 := by
  cases hcfg : RATE_LIMITS a o with
  | none =>
    cases client <;> simp [check, hcfg, DecisionInvariant]
  | some cfg =>
    obtain ⟨hm1, hd1⟩ := RATE_LIMITS_pos a o cfg hcfg
    have hm1' : (1 : Int) ≤ (cfg.requests_per_minute : Int) := by exact_mod_cast hm1
    have hd1' : (1 : Int) ≤ (cfg.requests_per_day : Int) := by exact_mod_cast hd1
    cases client with
    | none =>
      simp [check, hcfg, DecisionInvariant, failOpenResult]
    | some c =>
      by_cases hic : c.is_connected = false
      · rw [check_unfold_cfg c u a o now rid cfg hcfg, if_pos hic]
        simp [DecisionInvariant, failOpenResult]
      · rw [Bool.not_eq_false] at hic
        have hswinv := check_sliding_window_invariant c (minute_key u a o)
          cfg.requests_per_minute 60 now rid (hwf.1 _) hm1'
        by_cases hall : (check_sliding_window (some c) (minute_key u a o)
            (cfg.requests_per_minute : Int) 60 now rid).1.allowed = false
        · rw [check_minute_denied c u a o now rid cfg hcfg hic hall]
          exact hswinv
        · rw [Bool.not_eq_false] at hall
          rw [check_minute_allowed c u a o now rid cfg hcfg hic hall]
          obtain ⟨c', he, f1, f2, f3, f4, f5, -⟩ :=
            check_sliding_window_frame c (minute_key u a o) cfg.requests_per_minute 60 now rid
          have hfwinv := check_fixed_window_invariant c' (day_key u (daily_pool o))
            cfg.requests_per_day 86400 now
            (by rw [f5]; exact hwf.2 _) hd1' (by omega)
          dsimp only
          rw [he]
          by_cases hd2 : (check_fixed_window (some c') (day_key u (daily_pool o))
              (cfg.requests_per_day : Int) 86400 now).1.allowed = false
          · rw [if_pos hd2]
            exact hfwinv
          · rw [if_neg hd2]
            exact hswinv

/-- C3 witness: a concrete connected client over a well-formed store. -/
theorem check_decision_invariant_witness :
    WFClient (some
      { client_set := true, sliding_window_sha := true, fixed_window_sha := true,
        evalsha_ok := true,
        store := { zsets := fun _ => [((3 : Int), "3:a")],
                   counters := fun _ => ⟨2, 100⟩ } }) ∧
    DecisionInvariant (check (some
      { client_set := true, sliding_window_sha := true, fixed_window_sha := true,
        evalsha_ok := true,
        store := { zsets := fun _ => [((3 : Int), "3:a")],
                   counters := fun _ => ⟨2, 100⟩ } }) 9 .PAT .WRITE 10 "r").1 := by
  have hwf : WFClient (some
      { client_set := true, sliding_window_sha := true, fixed_window_sha := true,
        evalsha_ok := true,
        store := { zsets := fun _ => [((3 : Int), "3:a")],
                   counters := fun _ => ⟨2, 100⟩ } }) := by
    refine ⟨?_, ?_⟩
    · intro k e he
      simp only [List.mem_singleton] at he
      subst he
      decide
    · intro k h
      show (1 : Int) ≤ 100
      norm_num
  exact ⟨hwf, check_decision_invariant _ 9 .PAT .WRITE 10 "r" hwf⟩

/-! ### C5: a per-minute denial short-circuits the daily check -/

/-- C5: if the sliding-window per-minute check denies, `check` returns that
denial as its result and the daily counters of the store are untouched. -/
theorem minute_denial_preserves_daily (c : RedisClient) (u : Nat)
    (a : AuthType) (o : OperationType) (now : Int) (rid : String)
    (cfg : RateLimitConfig)
    (hcfg : RATE_LIMITS a o = some cfg) (hic : c.is_connected = true)
    (hden : (check_sliding_window (some c) (minute_key u a o)
      (cfg.requests_per_minute : Int) 60 now rid).1.allowed = false) :
    (check (some c) u a o now rid).1 =
      (check_sliding_window (some c) (minute_key u a o)
        (cfg.requests_per_minute : Int) 60 now rid).1 ∧
    ∃ c', (check (some c) u a o now rid).2 = some c' ∧
      c'.store.counters = c.store.counters := by
  have heq := check_minute_denied c u a o now rid cfg hcfg hic hden
  obtain ⟨c', he, -, -, -, -, f5, -⟩ :=
    check_sliding_window_frame c (minute_key u a o) cfg.requests_per_minute 60 now rid
  refine ⟨by rw [heq], c', ?_, f5⟩
  rw [heq]
  exact he

/-- C5 witness: user 1, AUTH0/SENSITIVE (minute cap 30) with a full minute
window: the request is denied by the per-minute check and the daily counters
are returned unchanged. -/
theorem minute_denial_preserves_daily_witness :
    (check (some
      { client_set := true, sliding_window_sha := true, fixed_window_sha := true,
        evalsha_ok := true,
        store := { zsets := fun k =>
                     if k = minute_key 1 .AUTH0 .SENSITIVE then
                       (List.range 30).map (fun i => ((50 : Int), Nat.repr i))
                     else [],
                   counters := fun _ => ⟨7, 99⟩ } }) 1 .AUTH0 .SENSITIVE 60 "r").1 =
      (check_sliding_window (some
      { client_set := true, sliding_window_sha := true, fixed_window_sha := true,
        evalsha_ok := true,
        store := { zsets := fun k =>
                     if k = minute_key 1 .AUTH0 .SENSITIVE then
                       (List.range 30).map (fun i => ((50 : Int), Nat.repr i))
                     else [],
                   counters := fun _ => ⟨7, 99⟩ } }) (minute_key 1 .AUTH0 .SENSITIVE)
        ((30 : Nat) : Int) 60 60 "r").1 ∧
    ∃ c', (check (some
      { client_set := true, sliding_window_sha := true, fixed_window_sha := true,
        evalsha_ok := true,
        store := { zsets := fun k =>
                     if k = minute_key 1 .AUTH0 .SENSITIVE then
                       (List.range 30).map (fun i => ((50 : Int), Nat.repr i))
                     else [],
                   counters := fun _ => ⟨7, 99⟩ } }) 1 .AUTH0 .SENSITIVE 60 "r").2 = some c' ∧
      c'.store.counters =
        (fun _ => (⟨7, 99⟩ : FWState)) := by
  exact minute_denial_preserves_daily _ 1 .AUTH0 .SENSITIVE 60 "r" ⟨30, 250⟩ rfl rfl
    (by decide)

/-! ### Decimal rendering of ids

The keys embed `user_id` through Python's decimal formatting, modelled by
`Nat.repr`.  The lemmas below show the decimal digits contain no ':' and that
the rendering is injective, which makes the colon-separated key formats
prefix-unambiguous. -/

theorem toDigitsCore_append (fuel n : Nat) (acc : List Char) :
    Nat.toDigitsCore 10 fuel n acc = Nat.toDigitsCore 10 fuel n [] ++ acc := by
  induction fuel generalizing n acc with
  | zero => simp [Nat.toDigitsCore]
  | succ f ih =>
    by_cases h : n / 10 = 0
    · simp [Nat.toDigitsCore, h]
    · simp only [Nat.toDigitsCore, h, if_neg]
      rw [ih (n / 10) _, ih (n / 10) [Nat.digitChar (n % 10)]]
      simp

/-- The decimal digit string of a natural number, most significant digit first. -/
def decDigits (n : Nat) : List Char :=
  if _h : n < 10 then [Nat.digitChar n]
  else decDigits (n / 10) ++ [Nat.digitChar (n % 10)]
decreasing_by exact Nat.div_lt_self (by omega) (by omega)

theorem decDigits_ne_nil (n : Nat) : decDigits n ≠ [] := by
  rw [decDigits]
  split <;> simp

theorem toDigitsCore_eq_decDigits :
    ∀ (fuel n : Nat), n < 10 ^ (fuel + 1) →
      Nat.toDigitsCore 10 (fuel + 1) n [] = decDigits n := by
  intro fuel
  induction fuel with
  | zero =>
    intro n hn
    have h10 : n < 10 := by simpa using hn
    have hdiv : n / 10 = 0 := by omega
    have hmod : n % 10 = n := by omega
    rw [decDigits]
    simp [Nat.toDigitsCore, hdiv, hmod, h10]
  | succ f ih =>
    intro n hn
    by_cases h10 : n < 10
    · have hdiv : n / 10 = 0 := by omega
      have hmod : n % 10 = n := by omega
      rw [decDigits]
      simp [Nat.toDigitsCore, hdiv, hmod, h10]
    · have hdiv : ¬ (n / 10 = 0) := by omega
      have hrec : n / 10 < 10 ^ (f + 1) := by
        have hexp : 10 ^ (f + 1 + 1) = 10 ^ (f + 1) * 10 := by ring
        rw [hexp] at hn
        omega
      calc Nat.toDigitsCore 10 (f + 1 + 1) n []
          = Nat.toDigitsCore 10 (f + 1) (n / 10) [Nat.digitChar (n % 10)] := by
            simp [Nat.toDigitsCore, hdiv]
        _ = Nat.toDigitsCore 10 (f + 1) (n / 10) [] ++ [Nat.digitChar (n % 10)] :=
            toDigitsCore_append _ _ _
        _ = decDigits (n / 10) ++ [Nat.digitChar (n % 10)] := by rw [ih _ hrec]
        _ = decDigits n := by
            conv_rhs => rw [decDigits]
            rw [dif_neg h10]

theorem repr_data (n : Nat) : (Nat.repr n).data = decDigits n := by
  have h : n < 10 ^ (n + 1) := by
    have h1 : n < 10 ^ n := Nat.lt_pow_self (by omega) n
    have h2 : 10 ^ n ≤ 10 ^ (n + 1) := Nat.pow_le_pow_right (by omega) (Nat.le_succ n)
    omega
  have h0 : (Nat.repr n).data = Nat.toDigitsCore 10 (n + 1) n [] := rfl
  rw [h0, toDigitsCore_eq_decDigits n n h]

theorem digitChar_ne_colon : ∀ a, a < 10 → Nat.digitChar a ≠ ':' := by decide

theorem digitChar_inj_lt : ∀ a, a < 10 → ∀ b, b < 10 →
    Nat.digitChar a = Nat.digitChar b → a = b := by decide

theorem mem_decDigits_ne_colon (n : Nat) : ∀ c ∈ decDigits n, c ≠ ':' := by
  induction n using Nat.strong_induction_on with
  | _ n ih =>
    rw [decDigits]
    split
    · next h10 =>
      intro c hc
      simp only [List.mem_singleton] at hc
      subst hc
      exact digitChar_ne_colon n h10
    · next h10 =>
      intro c hc
      rcases List.mem_append.mp hc with hc1 | hc2
      · exact ih (n / 10) (Nat.div_lt_self (by omega) (by omega)) c hc1
      · simp only [List.mem_singleton] at hc2
        subst hc2
        exact digitChar_ne_colon _ (Nat.mod_lt _ (by omega))

theorem decDigits_eq_append (n : Nat) :
    decDigits n =
      (if n < 10 then [] else decDigits (n / 10)) ++ [Nat.digitChar (n % 10)] := by
  rw [decDigits]
  by_cases h : n < 10
  · rw [dif_pos h, if_pos h]
    have hm : n % 10 = n := by omega
    simp [hm]
  · rw [dif_neg h, if_neg h]

theorem decDigits_injective : ∀ m n : Nat, decDigits m = decDigits n → m = n := by
  intro m
  induction m using Nat.strong_induction_on with
  | _ m ih =>
    intro n h
    rw [decDigits_eq_append m, decDigits_eq_append n] at h
    have h' := congrArg List.reverse h
    simp only [List.reverse_append, List.reverse_cons, List.reverse_nil,
      List.nil_append, List.cons_append] at h'
    obtain ⟨h1, h2r⟩ := List.cons.inj h'
    have h2 : (if m < 10 then ([] : List Char) else decDigits (m / 10)) =
        (if n < 10 then ([] : List Char) else decDigits (n / 10)) :=
      List.reverse_injective h2r
    have hmod : m % 10 = n % 10 :=
      digitChar_inj_lt _ (Nat.mod_lt _ (by omega)) _ (Nat.mod_lt _ (by omega)) h1
    by_cases hm : m < 10 <;> by_cases hn : n < 10
    · omega
    · rw [if_pos hm, if_neg hn] at h2
      exact absurd h2.symm (decDigits_ne_nil _)
    · rw [if_neg hm, if_pos hn] at h2
      exact absurd h2 (decDigits_ne_nil _)
    · rw [if_neg hm, if_neg hn] at h2
      have hdiv := ih (m / 10) (Nat.div_lt_self (by omega) (by omega)) (n / 10) h2
      omega

theorem noColon_prefix_eq :
    ∀ (xs : List Char), (∀ c ∈ xs, c ≠ ':') →
      ∀ (ys : List Char), (∀ c ∈ ys, c ≠ ':') →
      ∀ (r r' : List Char), xs ++ ':' :: r = ys ++ ':' :: r' → xs = ys ∧ r = r' := by
  intro xs
  induction xs with
  | nil =>
    intro _ ys hys r r' h
    cases ys with
    | nil => simpa using h
    | cons y ys' =>
      exfalso
      simp only [List.nil_append, List.cons_append] at h
      obtain ⟨h1, -⟩ := List.cons.inj h
      exact hys y (by simp) h1.symm
  | cons x xs' ih =>
    intro hxs ys hys r r' h
    cases ys with
    | nil =>
      exfalso
      simp only [List.nil_append, List.cons_append] at h
      obtain ⟨h1, -⟩ := List.cons.inj h
      exact hxs x (by simp) h1
    | cons y ys' =>
      simp only [List.cons_append] at h
      obtain ⟨h1, h2⟩ := List.cons.inj h
      obtain ⟨ha, hb⟩ := ih (fun c hc => hxs c (by simp [hc])) ys'
        (fun c hc => hys c (by simp [hc])) r r' h2
      exact ⟨by rw [h1, ha], hb⟩

theorem string_data_inj {s t : String} (h : s.data = t.data) : s = t := by
  cases s
  cases t
  exact congrArg String.mk h

theorem rate_key_parts {u u' : Nat} {t t' : List Char}
    (h : "rate:".data ++ (decDigits u ++ ':' :: t) =
      "rate:".data ++ (decDigits u' ++ ':' :: t')) :
    u = u' ∧ t = t' := by
  have h2 := List.append_cancel_left h
  obtain ⟨ha, hb⟩ := noColon_prefix_eq _ (mem_decDigits_ne_colon u) _
    (mem_decDigits_ne_colon u') _ _ h2
  exact ⟨decDigits_injective _ _ ha, hb⟩

theorem minute_key_data (u : Nat) (a : AuthType) (o : OperationType) :
    (minute_key u a o).data =
      "rate:".data ++ (decDigits u ++ ':' :: (a.value ++ ":" ++ o.value ++ ":min").data) := by
  have hc : (":" : String).data = [':'] := rfl
  simp [minute_key, String.data_append, repr_data, hc]

theorem day_key_data (u : Nat) (p : String) :
    (day_key u p).data =
      "rate:".data ++
        (decDigits u ++ ':' :: ('d' :: 'a' :: 'i' :: 'l' :: 'y' :: ':' :: p.data)) := by
  have hc : (":daily:" : String).data = [':', 'd', 'a', 'i', 'l', 'y', ':'] := rfl
  simp [day_key, String.data_append, repr_data, hc]

theorem minute_key_eq_user {u u' : Nat} {a a' : AuthType} {o o' : OperationType}
    (h : minute_key u a o = minute_key u' a' o') : u = u' := by
  have hd := congrArg String.data h
  rw [minute_key_data, minute_key_data] at hd
  exact (rate_key_parts hd).1

theorem day_key_eq_parts {u u' : Nat} {p p' : String}
    (h : day_key u p = day_key u' p') : u = u' ∧ p = p' := by
  have hd := congrArg String.data h
  rw [day_key_data, day_key_data] at hd
  obtain ⟨h1, h2⟩ := rate_key_parts hd
  refine ⟨h1, string_data_inj ?_⟩
  simpa using h2

/-! ### C9: distinct subjects never share quota state -/

theorem check_none_snd (u : Nat) (a : AuthType) (o : OperationType)
    (now : Int) (rid : String) :
    (check none u a o now rid).2 = none := by
  cases hcfg : RATE_LIMITS a o <;> simp [check, hcfg]

/-- A `check` for subject `u` preserves the availability flags and touches the
store only at `u`'s own minute and daily keys. -/
theorem check_frame (c : RedisClient) (u : Nat) (a : AuthType) (o : OperationType)
    (now : Int) (rid : String) :
    ∃ c', (check (some c) u a o now rid).2 = some c' ∧
      c'.client_set = c.client_set ∧
      c'.sliding_window_sha = c.sliding_window_sha ∧
      c'.fixed_window_sha = c.fixed_window_sha ∧
      c'.evalsha_ok = c.evalsha_ok ∧
      (∀ k, k ≠ minute_key u a o → c'.store.zsets k = c.store.zsets k) ∧
      (∀ k, k ≠ day_key u (daily_pool o) → c'.store.counters k = c.store.counters k) := by
  cases hcfg : RATE_LIMITS a o with
  | none =>
    exact ⟨c, by simp [check, hcfg], rfl, rfl, rfl, rfl, fun _ _ => rfl, fun _ _ => rfl⟩
  | some cfg =>
    by_cases hic : c.is_connected = false
    · refine ⟨c, ?_, rfl, rfl, rfl, rfl, fun _ _ => rfl, fun _ _ => rfl⟩
      rw [check_unfold_cfg c u a o now rid cfg hcfg, if_pos hic]
    · rw [Bool.not_eq_false] at hic
      obtain ⟨c₁, he₁, g1, g2, g3, g4, gcnt, gz⟩ :=
        check_sliding_window_frame c (minute_key u a o) cfg.requests_per_minute 60 now rid
      by_cases hall : (check_sliding_window (some c) (minute_key u a o)
          (cfg.requests_per_minute : Int) 60 now rid).1.allowed = false
      · rw [check_minute_denied c u a o now rid cfg hcfg hic hall]
        exact ⟨c₁, he₁, g1, g2, g3, g4, gz, fun k _ => congrFun gcnt k⟩
      · rw [Bool.not_eq_false] at hall
        rw [check_minute_allowed c u a o now rid cfg hcfg hic hall]
        dsimp only
        rw [he₁]
        obtain ⟨c₂, he₂, k1, k2, k3, k4, kz, kc⟩ :=
          check_fixed_window_frame c₁ (day_key u (daily_pool o)) cfg.requests_per_day 86400 now
        have hpayload :
            c₂.client_set = c.client_set ∧
            c₂.sliding_window_sha = c.sliding_window_sha ∧
            c₂.fixed_window_sha = c.fixed_window_sha ∧
            c₂.evalsha_ok = c.evalsha_ok ∧
            (∀ k, k ≠ minute_key u a o → c₂.store.zsets k = c.store.zsets k) ∧
            (∀ k, k ≠ day_key u (daily_pool o) →
              c₂.store.counters k = c.store.counters k) := by
          refine ⟨by rw [k1, g1], by rw [k2, g2], by rw [k3, g3], by rw [k4, g4], ?_, ?_⟩
          · intro k hk
            rw [congrFun kz k, gz k hk]
          · intro k hk
            rw [kc k hk, congrFun gcnt k]
        by_cases hd2 : (check_fixed_window (some c₁) (day_key u (daily_pool o))
            (cfg.requests_per_day : Int) 86400 now).1.allowed = false
        · rw [if_pos hd2]
          exact ⟨c₂, he₂, hpayload.1, hpayload.2.1, hpayload.2.2.1, hpayload.2.2.2.1,
            hpayload.2.2.2.2.1, hpayload.2.2.2.2.2⟩
        · rw [if_neg hd2]
          exact ⟨c₂, he₂, hpayload.1, hpayload.2.1, hpayload.2.2.1, hpayload.2.2.2.1,
            hpayload.2.2.2.2.1, hpayload.2.2.2.2.2⟩

/-- The sequence of quota checks issued by subject `u`: the client evolves
through the second component of each `check`. -/
def runChecksFor (u : Nat) : Option RedisClient →
    List (AuthType × OperationType × Int × String) → Option RedisClient
  | cl, [] => cl
  | cl, x :: rest => runChecksFor u (check cl u x.1 x.2.1 x.2.2.1 x.2.2.2).2 rest

/-- Agreement away from subject `A`'s keys: equal availability flags and equal
store values at every key that is not one of `A`'s minute or daily keys. -/
def AgreesOffUser (A : Nat) : Option RedisClient → Option RedisClient → Prop
  | none, none => True
  | some c₀, some c =>
      c.client_set = c₀.client_set ∧
      c.sliding_window_sha = c₀.sliding_window_sha ∧
      c.fixed_window_sha = c₀.fixed_window_sha ∧
      c.evalsha_ok = c₀.evalsha_ok ∧
      (∀ k, (∀ a o, k ≠ minute_key A a o) → c.store.zsets k = c₀.store.zsets k) ∧
      (∀ k, (∀ p, k ≠ day_key A p) → c.store.counters k = c₀.store.counters k)
  | _, _ => False

theorem agreesOffUser_refl (A : Nat) (cl : Option RedisClient) : AgreesOffUser A cl cl := by
  cases cl with
  | none => trivial
  | some c => exact ⟨rfl, rfl, rfl, rfl, fun _ _ => rfl, fun _ _ => rfl⟩

theorem agreesOffUser_step (A : Nat) (cl₀ cl : Option RedisClient)
    (h : AgreesOffUser A cl₀ cl) (a : AuthType) (o : OperationType)
    (now : Int) (rid : String) :
    AgreesOffUser A cl₀ (check cl A a o now rid).2 := by
  cases cl₀ with
  | none =>
    cases cl with
    | none => rw [check_none_snd]; trivial
    | some c => exact absurd h (by simp [AgreesOffUser])
  | some c₀ =>
    cases cl with
    | none => exact absurd h (by simp [AgreesOffUser])
    | some c =>
      obtain ⟨h1, h2, h3, h4, hz, hc⟩ := h
      obtain ⟨c', he, f1, f2, f3, f4, fz, fc⟩ := check_frame c A a o now rid
      rw [he]
      refine ⟨by rw [f1, h1], by rw [f2, h2], by rw [f3, h3], by rw [f4, h4], ?_, ?_⟩
      · intro k hk
        rw [fz k (hk a o), hz k hk]
      · intro k hk
        rw [fc k (hk (daily_pool o)), hc k hk]

theorem runChecksFor_agrees (A : Nat) (cl₀ : Option RedisClient) :
    ∀ (ops : List (AuthType × OperationType × Int × String)) (cl : Option RedisClient),
      AgreesOffUser A cl₀ cl → AgreesOffUser A cl₀ (runChecksFor A cl ops) := by
  intro ops
  induction ops with
  | nil => intro cl h; exact h
  | cons x rest ih =>
    intro cl h
    exact ih _ (agreesOffUser_step A cl₀ cl h x.1 x.2.1 x.2.2.1 x.2.2.2)

/-- C9: two distinct subject ids never share quota state.  Whatever sequence of
checks subject `A` performs (exhausting windows included), subject `B`'s next
decision is the same as if none of them had happened. -/
theorem distinct_subjects_isolated (A B : Nat) (hAB : A ≠ B)
    (client : Option RedisClient)
    (ops : List (AuthType × OperationType × Int × String))
    (a : AuthType) (o : OperationType) (now : Int) (rid : String) :
    (check (runChecksFor A client ops) B a o now rid).1 =
      (check client B a o now rid).1 := by
  have hagrees := runChecksFor_agrees A client ops client (agreesOffUser_refl A client)
  cases hcl : client with
  | none =>
    rw [hcl] at hagrees
    cases hrun : runChecksFor A none ops with
    | none => rfl
    | some c => rw [hrun] at hagrees; exact absurd hagrees (by simp [AgreesOffUser])
  | some c₀ =>
    rw [hcl] at hagrees
    cases hrun : runChecksFor A (some c₀) ops with
    | none => rw [hrun] at hagrees; exact absurd hagrees (by simp [AgreesOffUser])
    | some c =>
      rw [hrun] at hagrees
      obtain ⟨h1, h2, h3, h4, hz, hc⟩ := hagrees
      refine check_congr c₀ c B a o now rid h1 h2 h3 h4 ?_ ?_
      · refine hz _ ?_
        intro a' o' hkey
        exact hAB (minute_key_eq_user hkey.symm)
      · refine hc _ ?_
        intro p hkey
        exact hAB (day_key_eq_parts hkey.symm).1

/-- C9 witness at concrete subjects 1 and 2 with a connected client. -/
theorem distinct_subjects_isolated_witness :
    (check (runChecksFor 1 (some
      { client_set := true, sliding_window_sha := true, fixed_window_sha := true,
        evalsha_ok := true,
        store := { zsets := fun _ => [], counters := fun _ => FWState.empty } })
      [(.PAT, .READ, 10, "x"), (.AUTH0, .WRITE, 11, "y")]) 2 .PAT .READ 12 "z").1 =
    (check (some
      { client_set := true, sliding_window_sha := true, fixed_window_sha := true,
        evalsha_ok := true,
        store := { zsets := fun _ => [], counters := fun _ => FWState.empty } })
      2 .PAT .READ 12 "z").1 :=
  distinct_subjects_isolated 1 2 (by decide) _ _ .PAT .READ 12 "z"

/-! ### C8: READ and WRITE share the general daily pool; SENSITIVE is separate -/

/-- The client with the counter at one key replaced (used to express that a
decision does not depend on the other pool's counter). -/
def setCounter (c : RedisClient) (key : String) (v : FWState) : RedisClient :=
  { c with store := { c.store with
      counters := fun k => if k = key then v else c.store.counters k } }

theorem day_key_ne_of_pool_ne {u₁ u₂ : Nat} {p₁ p₂ : String} (h : p₁ ≠ p₂) :
    day_key u₁ p₁ ≠ day_key u₂ p₂ :=
  fun he => h (day_key_eq_parts he).2

theorem daily_pool_eq_general {o : OperationType} (h : o ≠ .SENSITIVE) :
    daily_pool o = "general" := by
  cases o
  · rfl
  · rfl
  · exact absurd rfl h

/-- C8: READ and WRITE are charged against the same "general" daily key, so a
WRITE request whose minute window admits it is denied once the general pool is
exhausted (no matter which operations, e.g. READs, filled it); the SENSITIVE
daily key is always a different key, a SENSITIVE decision does not depend on the
value of the general pool's counter, and a READ/WRITE decision does not depend
on the value of the sensitive pool's counter. -/
theorem daily_pool_sharing (c : RedisClient) (u : Nat) (a : AuthType)
    (now : Int) (rid : String) (cfgW : RateLimitConfig)
    (hW : RATE_LIMITS a .WRITE = some cfgW)
    (hconn : c.is_connected = true) (hfsha : c.fixed_window_sha = true)
    (hok : c.evalsha_ok = true)
    (hfull : (cfgW.requests_per_day : Int) ≤
      ((c.store.counters (day_key u (daily_pool .READ))).count : Int))
    (hmin : (check_sliding_window (some c) (minute_key u a .WRITE)
      (cfgW.requests_per_minute : Int) 60 now rid).1.allowed = true) :
    day_key u (daily_pool .READ) = day_key u (daily_pool .WRITE) ∧
    (∀ u₁ u₂ : Nat, day_key u₁ (daily_pool .SENSITIVE) ≠ day_key u₂ (daily_pool .READ)) ∧
    (check (some c) u a .WRITE now rid).1.allowed = false ∧
    (∀ (v : FWState) (u₂ : Nat) (a₂ : AuthType) (now₂ : Int) (rid₂ : String),
      (check (some (setCounter c (day_key u (daily_pool .READ)) v))
          u₂ a₂ .SENSITIVE now₂ rid₂).1 =
        (check (some c) u₂ a₂ .SENSITIVE now₂ rid₂).1) ∧
    (∀ (v : FWState) (u₂ : Nat) (a₂ : AuthType) (o₂ : OperationType)
        (now₂ : Int) (rid₂ : String), o₂ ≠ .SENSITIVE →
      (check (some (setCounter c (day_key u (daily_pool .SENSITIVE)) v))
          u₂ a₂ o₂ now₂ rid₂).1 =
        (check (some c) u₂ a₂ o₂ now₂ rid₂).1) := by
  refine ⟨rfl, ?_, ?_, ?_, ?_⟩
  · intro u₁ u₂
    exact day_key_ne_of_pool_ne (by decide)
  · rw [check_minute_allowed c u a .WRITE now rid cfgW hW hconn hmin]
    dsimp only
    obtain ⟨c₁, he₁, f1, f2, f3, f4, gcnt, -⟩ :=
      check_sliding_window_frame c (minute_key u a .WRITE) cfgW.requests_per_minute 60 now rid
    rw [he₁]
    have hcs : c₁.client_set = true := by rw [f1]; exact hconn
    have hfs : c₁.fixed_window_sha = true := by rw [f3]; exact hfsha
    have hok₁ : c₁.evalsha_ok = true := by rw [f4]; exact hok
    have hst : c₁.store.counters (day_key u (daily_pool .WRITE)) =
        c.store.counters (day_key u (daily_pool .READ)) := congrFun gcnt _
    have hden : ¬ ((((c.store.counters (day_key u (daily_pool .READ))).count + 1 : Nat) : Int)
        ≤ (cfgW.requests_per_day : Int)) := by
      push_cast
      omega
    have hd : (check_fixed_window (some c₁) (day_key u (daily_pool .WRITE))
        (cfgW.requests_per_day : Int) 86400 now).1.allowed = false := by
      rw [check_fixed_window_run c₁ _ _ _ _ hfs hcs hok₁]
      dsimp only
      rw [hst]
      simp only [FIXED_WINDOW_SCRIPT]
      rw [if_neg hden]
      simp
    rw [if_pos hd]
    exact hd
  · intro v u₂ a₂ now₂ rid₂
    have hne : day_key u₂ (daily_pool .SENSITIVE) ≠ day_key u (daily_pool .READ) :=
      day_key_ne_of_pool_ne (by decide)
    refine check_congr c (setCounter c (day_key u (daily_pool .READ)) v)
      u₂ a₂ .SENSITIVE now₂ rid₂ rfl rfl rfl rfl rfl ?_
    simp [setCounter, hne]
  · intro v u₂ a₂ o₂ now₂ rid₂ ho₂
    have hne : day_key u₂ (daily_pool o₂) ≠ day_key u (daily_pool .SENSITIVE) := by
      rw [daily_pool_eq_general ho₂]
      exact day_key_ne_of_pool_ne (by decide)
    refine check_congr c (setCounter c (day_key u (daily_pool .SENSITIVE)) v)
      u₂ a₂ o₂ now₂ rid₂ rfl rfl rfl rfl rfl ?_
    simp [setCounter, hne]

/-- The concrete client for the C8 witness: an exhausted general daily pool
(4000 units consumed, e.g. by READ calls) for subject 1, fresh minute windows. -/
def c8client : RedisClient :=
  { client_set := true, sliding_window_sha := true, fixed_window_sha := true,
    evalsha_ok := true,
    store := { zsets := fun _ => [],
               counters := fun k =>
                 if k = day_key 1 (daily_pool .READ) then ⟨4000, 500⟩
                 else FWState.empty } }

/-- C8 witness: subject 1's WRITE is denied once the shared general pool holds
4000 consumed units (the AUTH0 daily cap), even though its minute window is
fresh. -/
theorem daily_pool_sharing_witness :
    (check (some c8client) 1 .AUTH0 .WRITE 100 "r").1.allowed = false :=
  (daily_pool_sharing c8client 1 .AUTH0 100 "r" ⟨90, 4000⟩ rfl rfl rfl rfl
    (by decide) (by decide)).2.2.1

/-! ### The scripts preserve store well-formedness

These lemmas back the reachability reading of `WFStore`: every state produced
by `check` from a well-formed state (in particular from the empty store) is
well-formed again, provided the clock value is nonnegative. -/

theorem sliding_script_entries_wf (entries : List (Int × String))
    (now window limit : Int) (rid : String)
    (hwf : ∀ e ∈ entries, 0 ≤ e.1) (hnow : 0 ≤ now) :
    ∀ e ∈ (SLIDING_WINDOW_SCRIPT entries now window limit rid).entries, 0 ≤ e.1 := by
  simp only [SLIDING_WINDOW_SCRIPT]
  by_cases hcnt :
      (((entries.filter (fun e => decide (¬ (0 ≤ e.1 ∧ e.1 ≤ now - window)))).length : Int)
        < limit)
  · rw [if_pos hcnt]
    intro e he
    dsimp only at he
    rcases List.mem_append.mp he with h1 | h2
    · exact hwf e (List.mem_filter.mp h1).1
    · simp only [List.mem_singleton] at h2
      subst h2
      exact hnow
  · rw [if_neg hcnt]
    intro e he
    dsimp only at he
    exact hwf e (List.mem_filter.mp he).1

theorem fixed_script_state_wf (st : FWState) (limit window : Int)
    (hwf : 1 ≤ st.count → 1 ≤ st.ttl) (hwin : 1 ≤ window) :
    1 ≤ (FIXED_WINDOW_SCRIPT st limit window).state.count →
      1 ≤ (FIXED_WINDOW_SCRIPT st limit window).state.ttl := by
  simp only [FIXED_WINDOW_SCRIPT]
  by_cases hcnt : (((st.count + 1 : Nat) : Int) ≤ limit)
  · rw [if_pos hcnt]
    dsimp only
    intro _
    by_cases h1 : st.count + 1 = 1
    · rw [if_pos h1]
      exact hwin
    · rw [if_neg h1]
      exact hwf (by omega)
  · rw [if_neg hcnt]
    dsimp only
    intro _
    by_cases h1 : st.count + 1 = 1
    · rw [if_pos h1]
      exact hwin
    · rw [if_neg h1]
      exact hwf (by omega)

theorem check_sliding_window_preserves_WF (c : RedisClient) (key : String)
    (mr w now : Int) (rid : String)
    (hwf : WFStore c.store) (hnow : 0 ≤ now) :
    ∀ c', (check_sliding_window (some c) key mr w now rid).2 = some c' →
      WFStore c'.store := by
  by_cases h1 : c.sliding_window_sha = false
  · intro c' h
    simp only [check_sliding_window, h1, if_true] at h
    injection h with h
    subst h
    exact hwf
  · by_cases h2 : (c.client_set && c.evalsha_ok) = false
    · intro c' h
      simp [check_sliding_window, h1, h2] at h
      subst h
      exact hwf
    · rw [Bool.not_eq_false] at h1
      rw [Bool.not_eq_false, Bool.and_eq_true] at h2
      rw [check_sliding_window_run c key mr w now rid h1 h2.1 h2.2]
      intro c' h
      injection h with h
      subst h
      refine ⟨?_, hwf.2⟩
      intro k e he
      dsimp only at he
      by_cases hk : k = key
      · rw [if_pos hk] at he
        exact sliding_script_entries_wf (c.store.zsets key) now w mr rid (hwf.1 key) hnow e he
      · rw [if_neg hk] at he
        exact hwf.1 k e he

theorem check_fixed_window_preserves_WF (c : RedisClient) (key : String)
    (mr w now : Int) (hwf : WFStore c.store) (hwin : 1 ≤ w) :
    ∀ c', (check_fixed_window (some c) key mr w now).2 = some c' →
      WFStore c'.store := by
  by_cases h1 : c.fixed_window_sha = false
  · intro c' h
    simp only [check_fixed_window, h1, if_true] at h
    injection h with h
    subst h
    exact hwf
  · by_cases h2 : (c.client_set && c.evalsha_ok) = false
    · intro c' h
      simp [check_fixed_window, h1, h2] at h
      subst h
      exact hwf
    · rw [Bool.not_eq_false] at h1
      rw [Bool.not_eq_false, Bool.and_eq_true] at h2
      rw [check_fixed_window_run c key mr w now h1 h2.1 h2.2]
      intro c' h
      injection h with h
      subst h
      refine ⟨hwf.1, ?_⟩
      intro k
      dsimp only
      by_cases hk : k = key
      · rw [if_pos hk]
        exact fixed_script_state_wf (c.store.counters key) mr w (hwf.2 key) hwin
      · rw [if_neg hk]
        exact hwf.2 k

/-- `check` preserves store well-formedness: every store reachable from the
empty store through `check` calls with nonnegative clock values satisfies
`WFStore`, the hypothesis of the C3 invariant. -/
theorem check_preserves_WF (client : Option RedisClient) (u : Nat)
    (a : AuthType) (o : OperationType) (now : Int) (rid : String)
    (hwf : WFClient client) (hnow : 0 ≤ now) :
    WFClient (check client u a o now rid).2 := by
  cases hcfg : RATE_LIMITS a o with
  | none =>
    have h : (check client u a o now rid).2 = client := by
      cases client <;> simp [check, hcfg]
    rw [h]
    exact hwf
  | some cfg =>
    cases client with
    | none =>
      rw [check_none_snd]
      trivial
    | some c =>
      by_cases hic : c.is_connected = false
      · rw [check_unfold_cfg c u a o now rid cfg hcfg, if_pos hic]
        exact hwf
      · rw [Bool.not_eq_false] at hic
        obtain ⟨c₁, he₁, -, -, -, -, -, -⟩ :=
          check_sliding_window_frame c (minute_key u a o) cfg.requests_per_minute 60 now rid
        have hwf₁ : WFStore c₁.store :=
          check_sliding_window_preserves_WF c (minute_key u a o)
            cfg.requests_per_minute 60 now rid hwf hnow c₁ he₁
        by_cases hall : (check_sliding_window (some c) (minute_key u a o)
            (cfg.requests_per_minute : Int) 60 now rid).1.allowed = false
        · rw [check_minute_denied c u a o now rid cfg hcfg hic hall, he₁]
          exact hwf₁
        · rw [Bool.not_eq_false] at hall
          rw [check_minute_allowed c u a o now rid cfg hcfg hic hall]
          dsimp only
          rw [he₁]
          obtain ⟨c₂, he₂, -, -, -, -, -, -⟩ :=
            check_fixed_window_frame c₁ (day_key u (daily_pool o))
              cfg.requests_per_day 86400 now
          have hwf₂ : WFStore c₂.store :=
            check_fixed_window_preserves_WF c₁ (day_key u (daily_pool o))
              cfg.requests_per_day 86400 now hwf₁ (by omega) c₂ he₂
          by_cases hd2 : (check_fixed_window (some c₁) (day_key u (daily_pool o))
              (cfg.requests_per_day : Int) 86400 now).1.allowed = false
          · rw [if_pos hd2, he₂]
            exact hwf₂
          · rw [if_neg hd2]
            dsimp only
            rw [he₂]
            exact hwf₂

end Bookmarks
